import Mathlib

/-!
Verification development for the hippo-reasoning trace-memory engine.

The definitions below are shallow embeddings of the TypeScript source:

* `src/lib/similarity.ts`   — tokenizer, TF-IDF, cosine similarity, `findSimilarTraces`
* `src/lib/memory-policy.ts` (shipped as an unnamed module) — `scoreTrace`, `applyPolicy`
* `src/lib/hippo.ts`        — trace / regression data model, `MemoryStore.getReasoningContext`,
  `RegressionStore.addRun`
* `src/components/DiffPanel.tsx` — `computeDiff`
* `src/app/api/regressions/route.ts` — the `run_all` deploy gate
* `src/bin/hippo.js`        — the CI gate CLI exit-code logic

Modelling conventions: JavaScript numbers are modelled as exact rationals
(`ℚ`); values that pass through `Math.log` / `Math.sqrt` live in `ℝ`.
`Math.round` corresponds to Mathlib's `round` (both send `x` to `⌊x + 1/2⌋`).
Strings are handled as Lean `String`s; the tokenizer works on `List Char`
(`String.data`).  JS `Map`s are modelled by their key `Finset` plus value
function, or by association lists where iteration order matters.
The stable `Array.prototype.sort` is modelled by `List.insertionSort`,
which is stable for the total preorders used here; any two stable sorts
of the same list under the same preorder coincide.
-/

namespace Hippo

/-! ### Tokenizer (`src/lib/similarity.ts`, `tokenize`) -/

/-- A token is a list of characters (a lower-cased word). -/
abbrev Token := List Char

/-- The separator class of the regex
`[\s\-_.,;:!?'"()\[\]{}<>\/\\|@#$%^&*+=~` + backtick + `]` used by `tokenize`.
Whitespace is modelled by its ASCII members (space, tab, LF, VT, FF, CR);
the punctuation written via `Char.ofNat` is, in order: apostrophe (39),
double quote (34), opening brace (123), closing brace (125), backtick (96). -/
def sepChars : List Char :=
  [' ', '\t', '\n', Char.ofNat 11, Char.ofNat 12, '\r',
   '-', '_', '.', ',', ';', ':', '!', '?',
   Char.ofNat 39, Char.ofNat 34,
   '(', ')', '[', ']', Char.ofNat 123, Char.ofNat 125, '<', '>',
   '/', '\\', '|', '@', '#', '$', '%', Char.ofNat 94, '&', '*', '+', '=', '~',
   Char.ofNat 96]

/-- Does a character belong to the split class? -/
def isSep (c : Char) : Bool := sepChars.contains c

/-- The `STOP_WORDS` set of `src/lib/similarity.ts`, verbatim. -/
def stopWords : List Token :=
  (["a", "an", "the", "is", "are", "was", "were", "be", "been", "being",
    "have", "has", "had", "do", "does", "did", "will", "would", "could",
    "should", "may", "might", "shall", "can", "need", "dare", "ought",
    "to", "of", "in", "for", "on", "with", "at", "by", "from", "as",
    "into", "through", "during", "before", "after", "above", "below",
    "between", "out", "off", "over", "under", "again", "further", "then",
    "once", "and", "but", "or", "nor", "not", "so", "yet", "both",
    "each", "few", "more", "most", "other", "some", "such", "no",
    "only", "own", "same", "than", "too", "very", "just", "because",
    "if", "when", "where", "how", "what", "which", "who", "whom",
    "this", "that", "these", "those", "i", "me", "my", "we", "our",
    "you", "your", "he", "him", "his", "she", "her", "it", "its",
    "they", "them", "their", "about", "up"] : List String).map String.data

/-- Split a character list at every character satisfying `p`
(`String.prototype.split` with a single-character separator class;
the `+` quantifier of the source regex differs only in the empty pieces
it suppresses between adjacent separators, and every empty piece is
discarded by the length-`≥ 2` filter of `tokenize`). -/
def splitOnSeps (p : Char → Bool) : List Char → List Token
  | [] => [[]]
  | c :: cs =>
    if p c then [] :: splitOnSeps p cs
    else
      match splitOnSeps p cs with
      | [] => [[c]]
      | t :: ts => (c :: t) :: ts

/-- The filter of `tokenize`: keep tokens of length `≥ 2` that are not stop words. -/
def keepToken (t : Token) : Bool := decide (2 ≤ t.length) && !(stopWords.contains t)

/-- The function `tokenize` from `src/lib/similarity.ts`: lower-case, split on the
separator class, filter short tokens and stop words.  (`toLowerCase` is
modelled by `Char.toLower`, its restriction to basic latin letters.) -/
def tokenize (text : List Char) : List Token :=
  (splitOnSeps isSep (text.map Char.toLower)).filter keepToken

/-- JS `tokens.join(' ')` — space-join a token list. -/
def joinSp : List Token → List Char
  | [] => []
  | [t] => t
  | t :: t2 :: ts => t ++ ' ' :: joinSp (t2 :: ts)

/-! ### TF-IDF and cosine similarity (`src/lib/similarity.ts`) -/

/-- The map `computeTF`, as the value function of the returned `Map`: the count of
`t` in `tokens`, normalised by `tokens.length || 1`. -/
def computeTF (tokens : List Token) (t : Token) : ℚ :=
  (tokens.count t : ℚ) / (if tokens.length = 0 then 1 else (tokens.length : ℚ))

/-- Document frequency of a term over a corpus of token lists. -/
def docFreq (corpus : List (List Token)) (t : Token) : ℕ :=
  (corpus.filter (fun d => d.contains t)).length

/-- The map `computeIDF`, as the value function of the returned `Map`:
`Math.log(N / (1 + df(t)))`. -/
noncomputable def computeIDF (corpus : List (List Token)) (t : Token) : ℝ :=
  Real.log ((corpus.length : ℝ) / (1 + (docFreq corpus t : ℝ)))

/-- The IDF lookup `idf.get(term) ?? 0` of `computeTFIDF`: the `Map`
produced by `computeIDF` has a key exactly for the terms occurring in some
corpus document, i.e. those with `docFreq ≠ 0`. -/
noncomputable def idfOr0 (corpus : List (List Token)) (t : Token) : ℝ :=
  if docFreq corpus t = 0 then 0 else computeIDF corpus t

/-- The map `computeTFIDF`, as the value function of the returned `Map` (whose key
set is the set of distinct tokens of the document). -/
noncomputable def computeTFIDF (corpus : List (List Token)) (tokens : List Token) :
    Token → ℝ :=
  fun t => (computeTF tokens t : ℝ) * idfOr0 corpus t

/-- The function `cosineSimilarity` over sparse vectors, given as key sets plus value
functions.  The source iterates over `a`'s entries for `normA` and for the
dot product (adding a term only when `b` also has the key, hence the sum
over `ka ∩ kb`), over `b`'s entries for `normB`, and returns `0` when the
denominator `√normA · √normB` is zero. -/
noncomputable def cosineSimilarity (ka kb : Finset Token) (a b : Token → ℝ) : ℝ :=
  if Real.sqrt (∑ t ∈ ka, a t ^ 2) * Real.sqrt (∑ t ∈ kb, b t ^ 2) = 0 then 0
  else (∑ t ∈ ka ∩ kb, a t * b t) /
    (Real.sqrt (∑ t ∈ ka, a t ^ 2) * Real.sqrt (∑ t ∈ kb, b t ^ 2))

/-- The function `computeTextSimilarity`: the two strings as a two-document corpus. -/
noncomputable def computeTextSimilarity (a b : List Char) : ℝ :=
  if tokenize a = [] ∨ tokenize b = [] then 0
  else
    cosineSimilarity (tokenize a).toFinset (tokenize b).toFinset
      (computeTFIDF [tokenize a, tokenize b] (tokenize a))
      (computeTFIDF [tokenize a, tokenize b] (tokenize b))

/-! ### Trace data model (`src/lib/hippo.ts`) -/

/-- The union `TraceStep['type']`. -/
inductive StepType
  | user_message
  | assistant_message
  | tool_call
  | tool_result
  | reasoning
deriving DecidableEq

/-- The record `TraceStep`.  The optional `metadata` record is flattened: each
optional metadata field is an `Option` here, which is indistinguishable
from the source through the `step.metadata?.field` accesses the engine
performs.  `toolArgs` is carried in its JSON-serialised form. -/
structure TraceStep where
  id : String
  type : StepType
  content : String
  toolName : Option String
  toolArgs : Option String
  latencyMs : Option ℚ
  timestamp : ℚ
deriving DecidableEq

/-- The record `ReasoningTrace`. -/
structure ReasoningTrace where
  id : String
  sessionId : String
  query : String
  steps : List TraceStep
  startedAt : ℚ
  completedAt : ℚ
  totalLatencyMs : ℚ
  toolsUsed : List String
  stepCount : ℕ
  summary : Option String
deriving DecidableEq

/-- The function `traceToText`: query, then the space-joined tool names when any,
then the summary when truthy (JS: absent or empty summaries are dropped),
all joined with single spaces. -/
def traceToText (trace : ReasoningTrace) : List Char :=
  joinSp
    ([trace.query.data] ++
     (if trace.toolsUsed.length = 0 then [] else [joinSp (trace.toolsUsed.map String.data)]) ++
     (match trace.summary with
      | some s => if s.data = [] then [] else [s.data]
      | none => []))

/-- The per-trace similarity scores of `findSimilarTraces` (its `scored`
array, in pool order): corpus = query tokens followed by every trace's
tokens, IDF over the whole corpus, cosine of each trace vector against the
query vector. -/
noncomputable def similarityScores (query : String) (traces : List ReasoningTrace) :
    List ℝ :=
  (traces.map (fun t => tokenize (traceToText t))).map
    (fun dtoks =>
      cosineSimilarity (tokenize query.data).toFinset dtoks.toFinset
        (computeTFIDF ((tokenize query.data) :: traces.map (fun t => tokenize (traceToText t)))
          (tokenize query.data))
        (computeTFIDF ((tokenize query.data) :: traces.map (fun t => tokenize (traceToText t)))
          dtoks))

/-- The function `findSimilarTraces`: empty pool gives `[]`; a query with no tokens
gives the first `topK` pool entries unranked; otherwise sort the pool by
descending similarity (stably, as `Array.prototype.sort`) and truncate. -/
noncomputable def findSimilarTraces (query : String) (traces : List ReasoningTrace)
    (topK : ℕ := 3) : List ReasoningTrace :=
  if traces = [] then []
  else if tokenize query.data = [] then traces.take topK
  else
    ((((traces.zip (similarityScores query traces)).insertionSort
        (fun x y => y.2 ≤ x.2)).take topK).map Prod.fst)

/-! ### Trace scorer and retention policy (memory-policy module) -/

/-- The function `clamp`: `Math.max(0, Math.min(100, Math.round(value)))`.
JS `Math.round` rounds half toward `+∞`, exactly Mathlib's `round`. -/
def clamp (value : ℚ) : ℤ := max 0 (min 100 (round value))

/-- The record `TraceScore`. -/
structure TraceScore where
  traceId : String
  quality : ℤ
  usefulness : ℤ
  efficiency : ℤ
  overall : ℤ
deriving DecidableEq

/-- The function `scoreTrace`: quality / usefulness / efficiency heuristics and the
weighted overall score, each clamped to `[0,100]` at the end of its own
computation.  JS truthiness of `trace.summary` (the `usefulness` bonus)
means: present and non-empty. -/
def scoreTrace (trace : ReasoningTrace) : TraceScore :=
  let summaryLen : ℕ := (trace.summary.getD ("")).length
  let uniqueTools : ℕ := trace.toolsUsed.length
  let quality0 : ℚ :=
    if summaryLen < 100 then 50 - 30 else if 200 ≤ summaryLen then 50 + 15 else 50
  let quality1 : ℚ := quality0 + min (uniqueTools * 10 : ℚ) 30
  let quality2 : ℚ := if trace.stepCount = 0 then quality1 - 40 else quality1
  let quality : ℤ := clamp quality2
  let cappedSteps : ℚ := min (trace.stepCount : ℚ) 20
  let usefulness0 : ℚ := cappedSteps / 20 * 65 + min (uniqueTools * 5 : ℚ) 25
  let usefulness1 : ℚ :=
    usefulness0 + (match trace.summary with
      | some s => if s.data = [] then 0 else 10
      | none => 0)
  let usefulness : ℤ := clamp usefulness1
  let efficiency0 : ℚ :=
    if 0 < trace.stepCount then
      (let secondsPerStep : ℚ := trace.totalLatencyMs / (trace.stepCount : ℚ) / 1000
       if 1 < secondsPerStep then 100 - (secondsPerStep - 1) * 5 else 100)
    else 100
  let totalSeconds : ℚ := trace.totalLatencyMs / 1000
  let efficiency1 : ℚ :=
    if 60 < totalSeconds then efficiency0 - min (totalSeconds - 60) 40 else efficiency0
  let efficiency2 : ℚ := if trace.stepCount = 0 then 0 else efficiency1
  let efficiency : ℤ := clamp efficiency2
  let overall : ℤ :=
    clamp ((quality : ℚ) * (35 / 100) + (usefulness : ℚ) * (40 / 100) +
      (efficiency : ℚ) * (25 / 100))
  { traceId := trace.id, quality := quality, usefulness := usefulness,
    efficiency := efficiency, overall := overall }

/-- The record `MemoryPolicy`. -/
structure MemoryPolicy where
  id : String
  name : String
  maxTraces : ℕ
  minScore : ℚ
  decayRate : ℚ
  shouldRetain : ReasoningTrace → TraceScore → ℚ → Bool

/-- The built-in `AGGRESSIVE_POLICY`. -/
def AGGRESSIVE_POLICY : MemoryPolicy :=
  { id := "aggressive", name := "Aggressive", maxTraces := 50, minScore := 60,
    decayRate := 1 / 10,
    shouldRetain := fun _ score ageHours =>
      decide ((60 : ℚ) ≤ (score.overall : ℚ) - ageHours * (1 / 10) * 100) }

/-- The built-in `BALANCED_POLICY`. -/
def BALANCED_POLICY : MemoryPolicy :=
  { id := "balanced", name := "Balanced", maxTraces := 200, minScore := 30,
    decayRate := 5 / 100,
    shouldRetain := fun _ score ageHours =>
      decide ((30 : ℚ) ≤ (score.overall : ℚ) - ageHours * (5 / 100) * 100) }

/-- The built-in `ARCHIVE_ALL_POLICY`. -/
def ARCHIVE_ALL_POLICY : MemoryPolicy :=
  { id := "archive-all", name := "Archive All", maxTraces := 1000, minScore := 0,
    decayRate := 0, shouldRetain := fun _ _ _ => true }

/-- The annotated entries of `applyPolicy`'s `scored` array. -/
structure ScoredTrace where
  trace : ReasoningTrace
  score : TraceScore
  ageHours : ℚ
  decayedOverall : ℤ
deriving DecidableEq

/-- The function `applyPolicy` (with `Date.now()` passed explicitly as `now`): score and
annotate every trace, filter on the raw overall against `minScore` and on
the policy's `shouldRetain`, sort stably by decayed overall descending,
truncate to `maxTraces`.  (The source returns copies of the retained
traces with an extra `score` annotation spread on; the traces' own fields,
which are all this model carries, are unchanged.) -/
def applyPolicy (now : ℚ) (traces : List ReasoningTrace) (policy : MemoryPolicy) :
    List ReasoningTrace :=
  let scored := traces.map (fun trace =>
    let score := scoreTrace trace
    let ageHours := (now - trace.completedAt) / (1000 * 60 * 60)
    { trace := trace, score := score, ageHours := ageHours,
      decayedOverall := clamp ((score.overall : ℚ) - ageHours * policy.decayRate * 100)
      : ScoredTrace })
  let retained := scored.filter (fun x =>
    !(decide ((x.score.overall : ℚ) < policy.minScore)) &&
      policy.shouldRetain x.trace x.score x.ageHours)
  ((retained.insertionSort (fun x y => y.decayedOverall ≤ x.decayedOverall)).take
      policy.maxTraces).map ScoredTrace.trace

/-! ### Diff engine (`src/components/DiffPanel.tsx`, `computeDiff`) -/

/-- The union `DiffStatus`. -/
inductive DiffStatus
  | added
  | removed
  | changed
  | equal
deriving DecidableEq

/-- The record `DiffRow`. -/
structure DiffRow where
  status : DiffStatus
  stepA : Option TraceStep
  stepB : Option TraceStep
  index : ℕ
deriving DecidableEq

/-- The function `computeDiff`: positional alignment over `0 .. max(lenA, lenB) - 1`.
Both present: `equal` iff `(type, content, toolName)` agree, else
`changed`; only A: `removed`; only B: `added`.  (The both-absent case
pushes no row in the source and is unreachable below `maxLen`;
`filterMap` mirrors it.) -/
def computeDiff (traceA traceB : ReasoningTrace) : List DiffRow :=
  (List.range (max traceA.steps.length traceB.steps.length)).filterMap
    (fun i =>
      match traceA.steps[i]?, traceB.steps[i]? with
      | some a, some b =>
        some { status :=
                 if a.type = b.type ∧ a.content = b.content ∧ a.toolName = b.toolName
                 then DiffStatus.equal else DiffStatus.changed,
               stepA := some a, stepB := some b, index := i }
      | some a, none =>
        some { status := DiffStatus.removed, stepA := some a, stepB := none, index := i }
      | none, some b =>
        some { status := DiffStatus.added, stepA := none, stepB := some b, index := i }
      | none, none => none)

/-- The transform of the `diff(B, A)` relation: swap `added`/`removed`,
swap `stepA`/`stepB`, keep `equal`/`changed` and the index. -/
def swapRow (r : DiffRow) : DiffRow :=
  { status :=
      match r.status with
      | DiffStatus.added => DiffStatus.removed
      | DiffStatus.removed => DiffStatus.added
      | s => s,
    stepA := r.stepB, stepB := r.stepA, index := r.index }

/-! ### Regression gate (`src/lib/hippo.ts`, `src/app/api/regressions/route.ts`) -/

/-- The record `RegressionRun`. -/
structure RegressionRun where
  id : String
  timestamp : ℚ
  passed : Bool
  score : ℚ
  actualToolCalls : List String
  actualStepCount : ℕ
  delta : ℚ
deriving DecidableEq

/-- The record `RegressionTest`. -/
structure RegressionTest where
  id : String
  name : String
  sourceTraceId : String
  query : String
  expectedToolCalls : List String
  expectedStepCount : ℕ
  minScore : ℚ
  createdAt : ℚ
  lastRunAt : Option ℚ
  lastRunPassed : Option Bool
  runs : List RegressionRun
deriving DecidableEq

/-- One entry of the `results` array built by the `run_all` action. -/
structure RunAllEntry where
  testId : String
  name : String
  passed : Bool
  score : ℚ
deriving DecidableEq

/-- The body of the `run_all` response: gate verdict, per-test results,
summary string. -/
structure RunAllResponse where
  gate : String
  results : List RunAllEntry
  summary : String
deriving DecidableEq

/-- One loop iteration of the `run_all` action: the LLM judge is
abstracted as `judge`, giving the raw parsed score per test; the route
clamps it by `Math.min(100, Math.max(0, score))` and computes
`passed = score >= test.minScore`. -/
def runEntry (judge : RegressionTest → ℚ) (test : RegressionTest) : RunAllEntry :=
  { testId := test.id, name := test.name,
    passed := decide (test.minScore ≤ min 100 (max 0 (judge test))),
    score := min 100 (max 0 (judge test)) }

/-- The `run_all` aggregation for a non-empty test list:
`gate = PASS` iff every run passed, and
`summary = "<passes>/<total> passed"`. -/
def runAllOk (tests : List RegressionTest) (judge : RegressionTest → ℚ) :
    RunAllResponse :=
  { gate := if (tests.map (runEntry judge)).all RunAllEntry.passed then "PASS" else "FAIL",
    results := tests.map (runEntry judge),
    summary := toString ((tests.map (runEntry judge)).filter RunAllEntry.passed).length ++
      "/" ++ toString (tests.map (runEntry judge)).length ++ " passed" }

/-- What the `run_all` route hands the CLI: the empty test list is a
`400` response whose body carries `gate: "skip"`; otherwise a `200`
response with the aggregate gate. -/
inductive GateFetch
  | httpError (gateField : Option String)
  | ok (gate : String)
  | networkError
deriving DecidableEq

/-- The server side of `npx hippo gate`
(`src/app/api/regressions/route.ts`, action `run_all`). -/
def serverRunAll (tests : List RegressionTest) (judge : RegressionTest → ℚ) :
    GateFetch :=
  if tests = [] then GateFetch.httpError (some ("skip"))
  else GateFetch.ok (runAllOk tests judge).gate

/-- The exit-code logic of `main` in `src/bin/hippo.js`: a non-OK response
whose body says `gate: "skip"` exits `0`; any other fetch failure exits
`1`; an OK response exits `0` exactly on `gate === "PASS"`. -/
def cliExitCode : GateFetch → ℕ
  | GateFetch.httpError g => if g = some ("skip") then 0 else 1
  | GateFetch.networkError => 1
  | GateFetch.ok gate => if gate = "PASS" then 0 else 1

/-- The method `RegressionStore.addRun` over the store's `Map` contents, modelled as
an association list in insertion order: look the test up; when present,
append the run and stamp `lastRunAt` / `lastRunPassed`; when absent, do
nothing (the function still returns normally).  `KVRegressionStore.addRun`
behaves identically. -/
def addRun (store : List (String × RegressionTest)) (testId : String)
    (run : RegressionRun) : List (String × RegressionTest) :=
  match store.lookup testId with
  | none => store
  | some _ =>
    store.map (fun e =>
      if e.1 = testId then
        (e.1,
         { e.2 with
           runs := e.2.runs ++ [run]
           lastRunAt := some run.timestamp
           lastRunPassed := some run.passed })
      else e)

/-! ### Context assembly (`src/lib/hippo.ts`, `MemoryStore.getReasoningContext`) -/

/-- The method `MemoryStore.getBySession`: the traces of a session in insertion
order (the store is modelled as the list of stored traces in insertion
order; the per-session id index preserves it). -/
def getBySession (store : List ReasoningTrace) (sessionId : String) :
    List ReasoningTrace :=
  store.filter (fun t => t.sessionId = sessionId)

/-- One formatted "past trace" block: header with the trace's query, the
summary line when truthy, the tool-call lines when any, the first
assistant message truncated to 200 characters (or `N/A`), and a `---`
rule; empty lines are dropped (`filter(Boolean)`).  JS stringifies a
missing `toolName`/`toolArgs` as the text `undefined`. -/
def formatTraceBlock (trace : ReasoningTrace) : String :=
  let toolSteps := String.intercalate ("\n")
    ((trace.steps.filter (fun s => s.type = StepType.tool_call)).map
      (fun s => "  - " ++ s.toolName.getD ("undefined") ++ "(" ++
        s.toolArgs.getD ("undefined") ++ ")"))
  String.intercalate ("\n")
    (([("[Past reasoning trace — \"" ++ trace.query ++ "\"]"),
       (match trace.summary with
        | some s => if s.data = [] then "" else ("Summary: " ++ s)
        | none => ""),
       (if toolSteps = "" then "" else ("Tools used:\n" ++ toolSteps)),
       ("Result: " ++
         (match trace.steps.find? (fun s => s.type = StepType.assistant_message) with
          | some s => s.content.take 200
          | none => "N/A")),
       "---"]).filter (fun l => l ≠ ""))

/-- The method `MemoryStore.getReasoningContext`: the session's traces sorted by
`startedAt` descending (stably), truncated to `maxTraces`, formatted and
joined with blank lines; empty sessions give the empty string.  The
`query` argument is received but not consulted.
(`KVMemoryStore.getReasoningContext` is the same selection: its
`getBySession` already sorts by `startedAt` descending.) -/
def getReasoningContext (store : List ReasoningTrace) (query : String)
    (sessionId : String) (maxTraces : ℕ := 3) : String :=
  let sessionTraces := getBySession store sessionId
  if sessionTraces = [] then ""
  else
    String.intercalate ("\n\n")
      (((sessionTraces.insertionSort (fun a b => b.startedAt ≤ a.startedAt)).take
          maxTraces).map formatTraceBlock)

/-! ### Concrete fixtures used by witnesses and counterexamples -/

/-- A completed trace with no steps, no tools and no summary. -/
def bareTrace (id query : String) (startedAt : ℚ) : ReasoningTrace :=
  { id := id, sessionId := "s", query := query, steps := [],
    startedAt := startedAt, completedAt := startedAt, totalLatencyMs := 0,
    toolsUsed := [], stepCount := 0, summary := none }

/-- The pool document of the spec's retrieval scenario. -/
def traceRelated : ReasoningTrace := bareTrace ("t1") ("AI agent memory systems research") 0

/-- An unrelated pool document sharing no terms with the query. -/
def traceUnrelated : ReasoningTrace := bareTrace ("t2") ("quantum flux capacitor") 0

/-- A third unrelated pool document (used to probe ranking). -/
def traceUnrelated2 : ReasoningTrace := bareTrace ("t3") ("sourdough bread hydration") 0

/-- A well-scoring trace: 200-character summary, three tools, 20 steps in
10 seconds. -/
def richTrace : ReasoningTrace :=
  { id := "rich", sessionId := "s", query := "deep research", steps := [],
    startedAt := 0, completedAt := 10000, totalLatencyMs := 10000,
    toolsUsed := ["search", "fetch", "calc"], stepCount := 20,
    summary := some (String.mk (List.replicate 200 ('a'))) }

/-- A regression test with the default `minScore` of 70. -/
def demoTest (id name : String) : RegressionTest :=
  { id := id, name := name, sourceTraceId := "src-trace", query := "q",
    expectedToolCalls := [], expectedStepCount := 1, minScore := 70,
    createdAt := 0, lastRunAt := none, lastRunPassed := none, runs := [] }

/-- The spec's three-test `run_all` scenario (judged scores 80, 65, 90). -/
def demoTests : List RegressionTest :=
  [demoTest ("r1") ("one"), demoTest ("r2") ("two"), demoTest ("r3") ("three")]

/-- The judge of the scenario: 80 / 65 / 90 by test id. -/
def demoJudge : RegressionTest → ℚ :=
  fun t => if t.id = "r1" then 80 else if t.id = "r2" then 65 else 90

/-- The token list of the query `"ai agent memory"`. -/
def qTokens : List Token := [("ai").data, ("agent").data, ("memory").data]

/-- The token list of the related pool document. -/
def d1Tokens : List Token :=
  [("ai").data, ("agent").data, ("memory").data, ("systems").data, ("research").data]

/-- The token list of the unrelated pool document. -/
def d2Tokens : List Token := [("quantum").data, ("flux").data, ("capacitor").data]

/-- The three-document corpus of the retrieval scenario. -/
def demoCorpus : List (List Token) := [qTokens, d1Tokens, d2Tokens]

/-- A concrete regression run. -/
def demoRun : RegressionRun :=
  { id := "run-1", timestamp := 1234, passed := true, score := 85,
    actualToolCalls := [], actualStepCount := 1, delta := 15 }

/-- An older session trace whose text matches the query
`"ai agent memory"`. -/
def traceOldRelated : ReasoningTrace := bareTrace ("old") ("AI agent memory systems research") 0

/-- A newer session trace unrelated to that query. -/
def traceNewUnrelated : ReasoningTrace := bareTrace ("new") ("bake sourdough bread") 1000

/-!
## Theorems
-/

/-- The aggregate gate string is always `"PASS"` or `"FAIL"`. -/
lemma runAllOk_gate_cases (tests : List RegressionTest) (judge : RegressionTest → ℚ) :
    (runAllOk tests judge).gate = "PASS" ∨ (runAllOk tests judge).gate = "FAIL" := by
  show (if (tests.map (runEntry judge)).all RunAllEntry.passed then "PASS" else "FAIL")
      = "PASS" ∨
    (if (tests.map (runEntry judge)).all RunAllEntry.passed then "PASS" else "FAIL")
      = "FAIL"
  by_cases hall : (tests.map (runEntry judge)).all RunAllEntry.passed
  · exact Or.inl (if_pos hall)
  · exact Or.inr (if_neg hall)

/-- C7: for every trace with `stepCount = 0`, `scoreTrace` returns
`efficiency = 0`, regardless of `totalLatencyMs` or any other field. -/
theorem scoreTrace_efficiency_zero_of_no_steps (trace : ReasoningTrace)
    (h : trace.stepCount = 0) : (scoreTrace trace).efficiency = 0 := by
  simp [scoreTrace, clamp, h]

/-- Witness for C7 at a concrete zero-step trace (with nonzero latency). -/
theorem scoreTrace_efficiency_zero_of_no_steps_witness :
    ({ bareTrace ("t0") ("q") 0 with totalLatencyMs := 99999 } : ReasoningTrace).stepCount
        = 0 ∧
    (scoreTrace { bareTrace ("t0") ("q") 0 with totalLatencyMs := 99999 }).efficiency = 0 :=
  ⟨rfl, scoreTrace_efficiency_zero_of_no_steps _ rfl⟩

/-- C10: `addRun` on a test id absent from the store returns normally and
leaves the store completely unchanged (no run history, `lastRunAt` or
`lastRunPassed` of any test is touched): the run is silently dropped. -/
theorem addRun_absent_id_noop (store : List (String × RegressionTest))
    (testId : String) (run : RegressionRun) (h : store.lookup testId = none) :
    addRun store testId run = store := by
  simp [addRun, h]

/-- Witness for C10: a store holding test `r1`, a run added under the
absent id `r2`. -/
theorem addRun_absent_id_noop_witness :
    ([(("r1" : String), demoTest ("r1") ("one"))].lookup ("r2") = none) ∧
    addRun [(("r1" : String), demoTest ("r1") ("one"))] ("r2") demoRun =
      [(("r1" : String), demoTest ("r1") ("one"))] :=
  ⟨by decide, addRun_absent_id_noop _ _ _ (by decide)⟩

/-- C1: the context-assembly operation ignores its query entirely — the
assembled context is identical for any two queries — and on a session
holding an old trace matching the query plus a newer unrelated one, with
`maxTraces = 1`, it injects exactly the newer unrelated trace's block:
selection is by recency (`startedAt` descending), not by TF-IDF
similarity. -/
theorem getReasoningContext_ignores_query :
    (∀ (store : List ReasoningTrace) (q q' sid : String) (k : ℕ),
      getReasoningContext store q sid k = getReasoningContext store q' sid k) ∧
    getReasoningContext [traceOldRelated, traceNewUnrelated] ("ai agent memory") ("s") 1 =
      formatTraceBlock traceNewUnrelated :=
  ⟨fun _ _ _ _ _ => rfl, by decide⟩

/-- C2: for every non-empty test list and judge, `run_all` returns
`gate = "PASS"` iff every per-test run passed, the gate is otherwise
`"FAIL"`, and the summary counts passes out of totals. -/
theorem runAll_gate_iff (tests : List RegressionTest) (judge : RegressionTest → ℚ)
    (h : tests ≠ []) :
    ((runAllOk tests judge).gate = "PASS" ↔
      ∀ r ∈ (runAllOk tests judge).results, r.passed = true) ∧
    ((runAllOk tests judge).gate = "PASS" ∨ (runAllOk tests judge).gate = "FAIL") ∧
    (runAllOk tests judge).summary =
      toString ((runAllOk tests judge).results.filter RunAllEntry.passed).length ++ "/" ++
        toString tests.length ++ " passed" := by
  refine ⟨?_, ?_, ?_⟩
  · show (if (tests.map (runEntry judge)).all RunAllEntry.passed then "PASS" else "FAIL")
        = "PASS" ↔ ∀ r ∈ tests.map (runEntry judge), r.passed = true
    by_cases hall : (tests.map (runEntry judge)).all RunAllEntry.passed
    · rw [if_pos hall]
      exact iff_of_true rfl (List.all_eq_true.mp hall)
    · rw [if_neg hall]
      exact iff_of_false (by decide) (fun hcon => hall (List.all_eq_true.mpr hcon))
  · exact runAllOk_gate_cases tests judge
  · show toString ((tests.map (runEntry judge)).filter RunAllEntry.passed).length ++ "/" ++
        toString (tests.map (runEntry judge)).length ++ " passed" =
      toString ((tests.map (runEntry judge)).filter RunAllEntry.passed).length ++ "/" ++
        toString tests.length ++ " passed"
    rw [List.length_map]

/-- Witness for C2: the spec scenario — three tests with `minScore = 70`
and judged scores 80, 65, 90 give per-test passed `[true, false, true]`,
gate `"FAIL"`, summary `"2/3 passed"`. -/
theorem runAll_gate_iff_witness :
    demoTests ≠ [] ∧
    (runAllOk demoTests demoJudge).results.map RunAllEntry.passed = [true, false, true] ∧
    (runAllOk demoTests demoJudge).gate = "FAIL" ∧
    (runAllOk demoTests demoJudge).summary = "2/3 passed" ∧
    ((runAllOk demoTests demoJudge).gate = "PASS" ↔
      ∀ r ∈ (runAllOk demoTests demoJudge).results, r.passed = true) :=
  ⟨by decide, by decide, by decide, by decide,
    (runAll_gate_iff demoTests demoJudge (by decide)).1⟩

/-- C3 counterexample: on the "no tests configured" skip condition the CLI
exits with code `0`, not `1` as the claim states (`src/bin/hippo.js`
prints `[SKIP]` and calls `process.exit(0)`). -/
theorem cli_skip_exits_zero_cex :
    cliExitCode (serverRunAll [] demoJudge) = 0 ∧
    ¬ cliExitCode (serverRunAll [] demoJudge) = 1 := by decide

/-- C3 (amended): the CI gate CLI exits with code `0` on an aggregate
`PASS` **and on the "no tests configured" skip condition** (the skip, a
distinct verdict that is neither `PASS` nor `FAIL`, is non-blocking), and
exits with code `1` exactly on `FAIL`. -/
theorem cli_exit_code_spec (tests : List RegressionTest) (judge : RegressionTest → ℚ) :
    (tests = [] → cliExitCode (serverRunAll tests judge) = 0) ∧
    (tests ≠ [] →
      (cliExitCode (serverRunAll tests judge) = 0 ↔ (runAllOk tests judge).gate = "PASS") ∧
      (cliExitCode (serverRunAll tests judge) = 1 ↔ (runAllOk tests judge).gate = "FAIL")) := by
  constructor
  · intro h
    simp [serverRunAll, h, cliExitCode]
  · intro h
    rw [serverRunAll, if_neg h]
    show ((if (runAllOk tests judge).gate = "PASS" then 0 else 1) = 0 ↔ _) ∧
      ((if (runAllOk tests judge).gate = "PASS" then 0 else 1) = 1 ↔ _)
    by_cases hg : (runAllOk tests judge).gate = "PASS"
    · rw [if_pos hg]
      refine ⟨iff_of_true rfl hg, iff_of_false (by decide) ?_⟩
      intro hf
      rw [hg] at hf
      exact absurd hf (by decide)
    · rw [if_neg hg]
      refine ⟨iff_of_false (by decide) hg, iff_of_true rfl ?_⟩
      rcases runAllOk_gate_cases tests judge with hp | hf
      · exact absurd hp hg
      · exact hf

/-- Witness for C3 (amended): empty test list exits `0`; the demo suite
(one failing test) exits `1` on its `FAIL` gate. -/
theorem cli_exit_code_spec_witness :
    (([] : List RegressionTest) = [] → cliExitCode (serverRunAll [] demoJudge) = 0) ∧
    (cliExitCode (serverRunAll demoTests demoJudge) = 1 ↔
      (runAllOk demoTests demoJudge).gate = "FAIL") :=
  ⟨(cli_exit_code_spec [] demoJudge).1,
    ((cli_exit_code_spec demoTests demoJudge).2 (by decide)).2⟩

/-- C5: `applyPolicy` returns at most `policy.maxTraces` entries, and
every returned trace's undecayed overall score (as computed by
`scoreTrace`) is at least `policy.minScore`. -/
theorem applyPolicy_maxTraces_minScore (now : ℚ) (policy : MemoryPolicy)
    (traces : List ReasoningTrace) (t : ReasoningTrace)
    (ht : t ∈ applyPolicy now traces policy) :
    (applyPolicy now traces policy).length ≤ policy.maxTraces ∧
    policy.minScore ≤ ((scoreTrace t).overall : ℚ) := by
  constructor
  · simp only [applyPolicy, List.length_map, List.length_take]
    exact min_le_left _ _
  · simp only [applyPolicy] at ht
    obtain ⟨x, hx, rfl⟩ := List.mem_map.mp ht
    have hx2 := List.mem_of_mem_take hx
    rw [List.mem_insertionSort] at hx2
    obtain ⟨hsc, hpred⟩ := List.mem_filter.mp hx2
    obtain ⟨tr, htr, rfl⟩ := List.mem_map.mp hsc
    simp only [Bool.and_eq_true, Bool.not_eq_true', decide_eq_false_iff_not] at hpred
    exact not_lt.mp hpred.1

/-- Evaluating `scoreTrace` on the rich fixture: quality 95, usefulness 90,
efficiency 100, overall 94. -/
lemma scoreTrace_richTrace :
    scoreTrace
      { id := "rich", sessionId := "s", query := "deep research", steps := [],
        startedAt := 0, completedAt := 10000, totalLatencyMs := 10000,
        toolsUsed := ["search", "fetch", "calc"], stepCount := 20,
        summary := some (String.mk (List.replicate 200 ('a'))) } =
      { traceId := "rich", quality := 95, usefulness := 90, efficiency := 100,
        overall := 94 } := by
  rw [scoreTrace]
  norm_num [String.length, clamp, round_eq]

/-- The Aggressive policy retains the single rich trace. -/
lemma applyPolicy_richTrace :
    applyPolicy 10000 [richTrace] AGGRESSIVE_POLICY = [richTrace] := by
  rw [applyPolicy]
  norm_num [richTrace, scoreTrace_richTrace, AGGRESSIVE_POLICY, clamp, round_eq,
    List.insertionSort, List.orderedInsert]

/-- Witness for C5: the Aggressive policy applied to a single rich trace
retains it; the bounds hold there. -/
theorem applyPolicy_maxTraces_minScore_witness :
    richTrace ∈ applyPolicy 10000 [richTrace] AGGRESSIVE_POLICY ∧
    ((applyPolicy 10000 [richTrace] AGGRESSIVE_POLICY).length ≤
        AGGRESSIVE_POLICY.maxTraces ∧
      AGGRESSIVE_POLICY.minScore ≤ ((scoreTrace richTrace).overall : ℚ)) :=
  ⟨by rw [applyPolicy_richTrace]; exact List.mem_singleton.mpr rfl,
    applyPolicy_maxTraces_minScore 10000 AGGRESSIVE_POLICY [richTrace] richTrace
      (by rw [applyPolicy_richTrace]; exact List.mem_singleton.mpr rfl)⟩

/-- C8: `computeDiff(B, A)` consists of exactly the rows of
`computeDiff(A, B)` in the same index order, with `added` and `removed`
statuses exchanged, `stepA`/`stepB` swapped in every row, and
`equal`/`changed` untouched. -/
theorem computeDiff_antisymm (a b : ReasoningTrace) :
    computeDiff b a = (computeDiff a b).map swapRow := by
  unfold computeDiff
  rw [List.map_filterMap, max_comm b.steps.length a.steps.length]
  apply List.filterMap_congr
  intro i _
  rcases ha : a.steps[i]? with _ | sa <;> rcases hb : b.steps[i]? with _ | sb
  · rfl
  · rfl
  · rfl
  · show some
        { status := if sb.type = sa.type ∧ sb.content = sa.content ∧ sb.toolName = sa.toolName
            then DiffStatus.equal else DiffStatus.changed,
          stepA := some sb, stepB := some sa, index := i } =
      Option.map swapRow (some
        { status := if sa.type = sb.type ∧ sa.content = sb.content ∧ sa.toolName = sb.toolName
            then DiffStatus.equal else DiffStatus.changed,
          stepA := some sa, stepB := some sb, index := i })
    by_cases hc : sa.type = sb.type ∧ sa.content = sb.content ∧ sa.toolName = sb.toolName
    · rw [if_pos hc,
        if_pos (show sb.type = sa.type ∧ sb.content = sa.content ∧ sb.toolName = sa.toolName
          from ⟨hc.1.symm, hc.2.1.symm, hc.2.2.symm⟩)]
      rfl
    · rw [if_neg hc,
        if_neg (show ¬(sb.type = sa.type ∧ sb.content = sa.content ∧ sb.toolName = sa.toolName)
          from fun hcon => hc ⟨hcon.1.symm, hcon.2.1.symm, hcon.2.2.symm⟩)]
      rfl

/-! Tokenizer algebra (towards C9). -/

/-- The split `splitOnSeps` never returns the empty list of pieces. -/
lemma splitOnSeps_ne_nil (p : Char → Bool) (xs : List Char) :
    splitOnSeps p xs ≠ [] := by
  induction xs with
  | nil => simp [splitOnSeps]
  | cons c cs ih =>
    rw [splitOnSeps]
    by_cases hc : p c
    · simp [hc]
    · simp only [hc, Bool.false_eq_true, if_false]
      cases h : splitOnSeps p cs <;> simp

/-- Every character of every piece of `splitOnSeps p xs` falsifies `p`. -/
lemma splitOnSeps_sep_free (p : Char → Bool) (xs : List Char) :
    ∀ t ∈ splitOnSeps p xs, ∀ c ∈ t, p c = false := by
  induction xs with
  | nil =>
    intro t ht c hc
    simp [splitOnSeps] at ht
    subst ht
    simp at hc
  | cons x cs ih =>
    intro t ht c hc
    rw [splitOnSeps] at ht
    by_cases hx : p x
    · rw [if_pos hx] at ht
      rcases List.mem_cons.mp ht with h | h
      · subst h; simp at hc
      · exact ih t h c hc
    · rw [if_neg hx] at ht
      cases hsplit : splitOnSeps p cs with
      | nil => exact absurd hsplit (splitOnSeps_ne_nil p cs)
      | cons t0 ts =>
        rw [hsplit] at ht
        rcases List.mem_cons.mp ht with h | h
        · subst h
          rcases List.mem_cons.mp hc with h' | h'
          · subst h'; exact Bool.of_not_eq_true hx
          · exact ih t0 (hsplit ▸ List.mem_cons_self t0 ts) c h'
        · exact ih t (hsplit ▸ List.mem_cons_of_mem t0 h) c hc

/-- Every character of every piece of `splitOnSeps p xs` comes from `xs`. -/
lemma splitOnSeps_subset (p : Char → Bool) (xs : List Char) :
    ∀ t ∈ splitOnSeps p xs, ∀ c ∈ t, c ∈ xs := by
  induction xs with
  | nil =>
    intro t ht c hc
    simp [splitOnSeps] at ht
    subst ht
    simp at hc
  | cons x cs ih =>
    intro t ht c hc
    rw [splitOnSeps] at ht
    by_cases hx : p x
    · rw [if_pos hx] at ht
      rcases List.mem_cons.mp ht with h | h
      · subst h; simp at hc
      · exact List.mem_cons_of_mem x (ih t h c hc)
    · rw [if_neg hx] at ht
      cases hsplit : splitOnSeps p cs with
      | nil => exact absurd hsplit (splitOnSeps_ne_nil p cs)
      | cons t0 ts =>
        rw [hsplit] at ht
        rcases List.mem_cons.mp ht with h | h
        · subst h
          rcases List.mem_cons.mp hc with h' | h'
          · simp [h']
          · exact List.mem_cons_of_mem x
              (ih t0 (hsplit ▸ List.mem_cons_self t0 ts) c h')
        · exact List.mem_cons_of_mem x (ih t (hsplit ▸ List.mem_cons_of_mem t0 h) c hc)

/-- A separator-free character list is returned whole by `splitOnSeps`. -/
lemma splitOnSeps_of_sep_free (p : Char → Bool) (t : List Char)
    (h : ∀ c ∈ t, p c = false) : splitOnSeps p t = [t] := by
  induction t with
  | nil => rfl
  | cons c cs ih =>
    rw [splitOnSeps, if_neg (by simp [h c (List.mem_cons_self c cs)]),
      ih (fun c' hc' => h c' (List.mem_cons_of_mem c hc'))]

/-- Splitting `t ++ s :: ys` for separator-free `t` and separator `s`
peels off `t` as the first piece. -/
lemma splitOnSeps_append_sep (p : Char → Bool) (t ys : List Char) (s : Char)
    (hs : p s = true) (ht : ∀ c ∈ t, p c = false) :
    splitOnSeps p (t ++ s :: ys) = t :: splitOnSeps p ys := by
  induction t with
  | nil => simp [splitOnSeps, hs]
  | cons c cs ih =>
    rw [List.cons_append, splitOnSeps,
      if_neg (by simp [ht c (List.mem_cons_self c cs)]),
      ih (fun c' hc' => ht c' (List.mem_cons_of_mem c hc'))]

/-- Re-splitting a space-join of separator-free pieces recovers the
pieces. -/
lemma splitOnSeps_joinSp (p : Char → Bool) (toks : List Token)
    (hne : toks ≠ []) (hsp : p ' ' = true)
    (h : ∀ t ∈ toks, ∀ c ∈ t, p c = false) :
    splitOnSeps p (joinSp toks) = toks := by
  induction toks with
  | nil => exact absurd rfl hne
  | cons t ts ih =>
    cases ts with
    | nil =>
      show splitOnSeps p (joinSp [t]) = [t]
      rw [joinSp]
      exact splitOnSeps_of_sep_free p t (h t (List.mem_cons_self t []))
    | cons t2 ts2 =>
      rw [joinSp, splitOnSeps_append_sep p t (joinSp (t2 :: ts2)) ' ' hsp
          (h t (List.mem_cons_self t (t2 :: ts2))),
        ih (by simp) (fun t' ht' c hc => h t' (List.mem_cons_of_mem t ht') c hc)]

/-- Applying `Char.ofNat` to a valid scalar value round-trips through `toNat`. -/
lemma char_toNat_ofNat_of_valid {m : ℕ} (h : m.isValidChar) :
    (Char.ofNat m).toNat = m := by
  rw [Char.ofNat, dif_pos h]
  rfl

/-- Lower-casing via `Char.toLower` is idempotent. -/
lemma char_toLower_idem (c : Char) : (Char.toLower c).toLower = Char.toLower c := by
  by_cases h : c.toNat ≥ 65 ∧ c.toNat ≤ 90
  · have h1 : c.toLower = Char.ofNat (c.toNat + 32) := by rw [Char.toLower, if_pos h]
    have hv : (c.toNat + 32).isValidChar := Or.inl (by omega)
    rw [h1, Char.toLower, char_toNat_ofNat_of_valid hv, if_neg (by omega)]
  · have h1 : c.toLower = c := by rw [Char.toLower, if_neg h]
    rw [h1]
    exact h1

/-- Lower-casing distributes over the space-join (space is toLower-fixed). -/
lemma map_toLower_joinSp (toks : List Token) :
    (joinSp toks).map Char.toLower = joinSp (toks.map (fun t => t.map Char.toLower)) := by
  induction toks with
  | nil => rfl
  | cons t ts ih =>
    cases ts with
    | nil => rfl
    | cons t2 ts2 =>
      have e1 : (t :: t2 :: ts2).map (fun t => t.map Char.toLower)
          = t.map Char.toLower :: t2.map Char.toLower ::
              ts2.map (fun t => t.map Char.toLower) := rfl
      rw [joinSp, e1, joinSp, List.map_append, List.map_cons, ih]
      rfl

/-- A list of toLower-fixed characters is fixed by mapping `toLower`. -/
lemma map_toLower_eq_self (t : List Char) (h : ∀ c ∈ t, Char.toLower c = c) :
    t.map Char.toLower = t := by
  induction t with
  | nil => rfl
  | cons c cs ih =>
    rw [List.map_cons, h c (List.mem_cons_self c cs),
      ih (fun c' hc' => h c' (List.mem_cons_of_mem c hc'))]

/-- Every token produced by `tokenize` is separator-free, toLower-fixed
and passes the keep filter. -/
lemma tokenize_token_props (text : List Char) (t : Token) (ht : t ∈ tokenize text) :
    (∀ c ∈ t, isSep c = false) ∧ t.map Char.toLower = t ∧ keepToken t = true := by
  rw [tokenize] at ht
  obtain ⟨hmem, hkeep⟩ := List.mem_filter.mp ht
  refine ⟨splitOnSeps_sep_free isSep _ t hmem, ?_, hkeep⟩
  apply map_toLower_eq_self
  intro c hc
  have := splitOnSeps_subset isSep _ t hmem c hc
  obtain ⟨c', _, rfl⟩ := List.mem_map.mp this
  exact char_toLower_idem c'

/-- C9: `tokenize` is idempotent on its own space-joined output — for
every input text, tokenizing the space-join of `tokenize text` gives
exactly `tokenize text` again. -/
theorem tokenize_idempotent (text : List Char) :
    tokenize (joinSp (tokenize text)) = tokenize text := by
  cases htoks : tokenize text with
  | nil => rfl
  | cons t ts =>
    have hprops : ∀ t' ∈ t :: ts,
        (∀ c ∈ t', isSep c = false) ∧ t'.map Char.toLower = t' ∧ keepToken t' = true :=
      fun t' ht' => tokenize_token_props text t' (htoks.symm ▸ ht')
    show (splitOnSeps isSep ((joinSp (t :: ts)).map Char.toLower)).filter keepToken
        = t :: ts
    rw [map_toLower_joinSp,
      show (t :: ts).map (fun t' => t'.map Char.toLower) = t :: ts from
        List.map_congr_left (fun t' ht' => (hprops t' ht').2.1) |>.trans (List.map_id _),
      splitOnSeps_joinSp isSep (t :: ts) (by simp) (by decide)
        (fun t' ht' => (hprops t' ht').1),
      List.filter_eq_self.mpr (fun t' ht' => (hprops t' ht').2.2)]

/-! Cosine-similarity analysis (towards C6 and C4). -/

/-- A zero norm on either side makes `cosineSimilarity` return `0`. -/
lemma cosineSimilarity_zero_of_norm_zero (ka kb : Finset Token) (a b : Token → ℝ)
    (h : (∑ t ∈ ka, a t ^ 2) = 0 ∨ (∑ t ∈ kb, b t ^ 2) = 0) :
    cosineSimilarity ka kb a b = 0 := by
  rw [cosineSimilarity, if_pos]
  rcases h with h | h <;> rw [h, Real.sqrt_zero]
  · rw [zero_mul]
  · rw [mul_zero]

/-- Cosine similarity of two vectors of the common shape
`term ↦ tf(term) · idf(term)` — nonnegative `tf` weights scaled by one
shared (arbitrary, possibly negative) `idf` weight per term — lies in
`[0, 1]`. -/
lemma cosineSimilarity_mul_bounds (ka kb : Finset Token) (fa fb g : Token → ℝ)
    (hfa : ∀ t, 0 ≤ fa t) (hfb : ∀ t, 0 ≤ fb t) :
    0 ≤ cosineSimilarity ka kb (fun t => fa t * g t) (fun t => fb t * g t) ∧
    cosineSimilarity ka kb (fun t => fa t * g t) (fun t => fb t * g t) ≤ 1 := by
  rw [cosineSimilarity]
  by_cases hd : Real.sqrt (∑ t ∈ ka, (fa t * g t) ^ 2) *
      Real.sqrt (∑ t ∈ kb, (fb t * g t) ^ 2) = 0
  · rw [if_pos hd]
    exact ⟨le_refl 0, zero_le_one⟩
  · rw [if_neg hd]
    have hdpos : 0 < Real.sqrt (∑ t ∈ ka, (fa t * g t) ^ 2) *
        Real.sqrt (∑ t ∈ kb, (fb t * g t) ^ 2) :=
      lt_of_le_of_ne (mul_nonneg (Real.sqrt_nonneg _) (Real.sqrt_nonneg _)) (Ne.symm hd)
    have hdot : 0 ≤ ∑ t ∈ ka ∩ kb, (fa t * g t) * (fb t * g t) := by
      apply Finset.sum_nonneg
      intro t _
      have he : (fa t * g t) * (fb t * g t) = (fa t * fb t) * g t ^ 2 := by ring
      rw [he]
      exact mul_nonneg (mul_nonneg (hfa t) (hfb t)) (sq_nonneg _)
    refine ⟨div_nonneg hdot hdpos.le, ?_⟩
    rw [div_le_one hdpos]
    calc ∑ t ∈ ka ∩ kb, (fa t * g t) * (fb t * g t)
        ≤ Real.sqrt (∑ t ∈ ka ∩ kb, (fa t * g t) ^ 2) *
          Real.sqrt (∑ t ∈ ka ∩ kb, (fb t * g t) ^ 2) :=
          Real.sum_mul_le_sqrt_mul_sqrt _ _ _
      _ ≤ Real.sqrt (∑ t ∈ ka, (fa t * g t) ^ 2) *
          Real.sqrt (∑ t ∈ kb, (fb t * g t) ^ 2) := by
          apply mul_le_mul
          · exact Real.sqrt_le_sqrt (Finset.sum_le_sum_of_subset_of_nonneg
              Finset.inter_subset_left (fun t _ _ => sq_nonneg _))
          · exact Real.sqrt_le_sqrt (Finset.sum_le_sum_of_subset_of_nonneg
              Finset.inter_subset_right (fun t _ _ => sq_nonneg _))
          · exact Real.sqrt_nonneg _
          · exact Real.sqrt_nonneg _

/-- Normalised term frequencies are nonnegative. -/
lemma computeTF_nonneg (tokens : List Token) (t : Token) : 0 ≤ computeTF tokens t := by
  rw [computeTF]
  apply div_nonneg (by positivity)
  split
  · exact zero_le_one
  · positivity

/-- C6: every similarity the engine produces — `computeTextSimilarity` on
any two texts, and each per-trace score inside `findSimilarTraces` — lies
in `[0, 1]`; a zero-norm TF-IDF vector on either side yields similarity
`0` rather than an error, and the value is never negative even though
individual IDF weights can be negative. -/
theorem similarity_in_unit_interval (a b : List Char) (query : String)
    (traces : List ReasoningTrace) (s : ℝ) (hs : s ∈ similarityScores query traces)
    (ka kb : Finset Token) (va vb : Token → ℝ)
    (hnorm : (∑ t ∈ ka, va t ^ 2) = 0 ∨ (∑ t ∈ kb, vb t ^ 2) = 0) :
    (0 ≤ computeTextSimilarity a b ∧ computeTextSimilarity a b ≤ 1) ∧
    (0 ≤ s ∧ s ≤ 1) ∧
    cosineSimilarity ka kb va vb = 0 := by
  refine ⟨?_, ?_, cosineSimilarity_zero_of_norm_zero ka kb va vb hnorm⟩
  · rw [computeTextSimilarity]
    by_cases hempty : tokenize a = [] ∨ tokenize b = []
    · rw [if_pos hempty]
      exact ⟨le_refl 0, zero_le_one⟩
    · rw [if_neg hempty]
      exact cosineSimilarity_mul_bounds (tokenize a).toFinset (tokenize b).toFinset
        (fun t => ((computeTF (tokenize a) t : ℚ) : ℝ))
        (fun t => ((computeTF (tokenize b) t : ℚ) : ℝ))
        (idfOr0 [tokenize a, tokenize b])
        (fun t => by exact Rat.cast_nonneg.mpr (computeTF_nonneg (tokenize a) t))
        (fun t => by exact Rat.cast_nonneg.mpr (computeTF_nonneg (tokenize b) t))
  · rw [similarityScores] at hs
    obtain ⟨dtoks, hdt, rfl⟩ := List.mem_map.mp hs
    exact cosineSimilarity_mul_bounds (tokenize query.data).toFinset dtoks.toFinset
      (fun t => ((computeTF (tokenize query.data) t : ℚ) : ℝ))
      (fun t => ((computeTF dtoks t : ℚ) : ℝ))
      (idfOr0 ((tokenize query.data) :: traces.map (fun t => tokenize (traceToText t))))
      (fun t => by exact Rat.cast_nonneg.mpr (computeTF_nonneg (tokenize query.data) t))
      (fun t => by exact Rat.cast_nonneg.mpr (computeTF_nonneg dtoks t))

/-- Witness for C6: a concrete pool score, a concrete text pair, and a
concrete zero vector. -/
theorem similarity_in_unit_interval_witness :
    ((similarityScores ("hello") [bareTrace ("w") ("hello world") 0]).headI ∈
      similarityScores ("hello") [bareTrace ("w") ("hello world") 0]) ∧
    ((0 ≤ computeTextSimilarity ("ai agent memory").data
          ("AI agent memory systems research").data ∧
        computeTextSimilarity ("ai agent memory").data
          ("AI agent memory systems research").data ≤ 1) ∧
      (0 ≤ (similarityScores ("hello") [bareTrace ("w") ("hello world") 0]).headI ∧
        (similarityScores ("hello") [bareTrace ("w") ("hello world") 0]).headI ≤ 1) ∧
      cosineSimilarity ∅ ∅ (fun _ => 0) (fun _ => 0) = 0) := by
  have hmem : (similarityScores ("hello") [bareTrace ("w") ("hello world") 0]).headI ∈
      similarityScores ("hello") [bareTrace ("w") ("hello world") 0] := by
    rw [similarityScores]
    simp only [List.map_cons, List.map_nil, List.headI]
    exact List.mem_cons_self _ _
  exact ⟨hmem,
    similarity_in_unit_interval ("ai agent memory").data
      ("AI agent memory systems research").data ("hello")
      [bareTrace ("w") ("hello world") 0] _ hmem ∅ ∅ (fun _ => 0) (fun _ => 0)
      (Or.inl (by simp))⟩

/-! The retrieval scenario (towards C4). -/

/-- Tokenizing the scenario query. -/
lemma tokenize_demo_query : tokenize ("ai agent memory").data = qTokens := by decide

/-- Tokenizing the related document. -/
lemma tokenize_demo_related : tokenize (traceToText traceRelated) = d1Tokens := by decide

/-- Tokenizing the unrelated document. -/
lemma tokenize_demo_unrelated : tokenize (traceToText traceUnrelated) = d2Tokens := by
  decide

/-- A term occurring in all but one of the corpus documents has IDF
`ln(N / (1 + (N - 1))) = ln 1 = 0`. -/
lemma idfOr0_eq_zero_of_df (corpus : List (List Token)) (t : Token)
    (hlen : corpus.length = 1 + docFreq corpus t) (h0 : docFreq corpus t ≠ 0) :
    idfOr0 corpus t = 0 := by
  rw [idfOr0, if_neg h0, computeIDF, hlen]
  push_cast
  rw [div_self (by positivity)]
  exact Real.log_one

/-- Every query term of the scenario occurs in the query document and the
related document only, so its IDF over the three-document corpus is `0`;
the query's TF-IDF vector therefore has zero norm. -/
lemma demo_query_norm_zero :
    ∑ t ∈ qTokens.toFinset, computeTFIDF demoCorpus qTokens t ^ 2 = 0 := by
  apply Finset.sum_eq_zero
  intro t ht
  have hdf : docFreq demoCorpus t = 2 := by
    rw [List.mem_toFinset] at ht
    rw [show qTokens = [("ai").data, ("agent").data, ("memory").data] from rfl] at ht
    rcases List.mem_cons.mp ht with rfl | ht
    · decide
    rcases List.mem_cons.mp ht with rfl | ht
    · decide
    rcases List.mem_cons.mp ht with rfl | ht
    · decide
    · simp at ht
  rw [show computeTFIDF demoCorpus qTokens t
      = (computeTF qTokens t : ℝ) * idfOr0 demoCorpus t from rfl,
    idfOr0_eq_zero_of_df demoCorpus t (by rw [hdf]; rfl) (by rw [hdf]; exact two_ne_zero),
    mul_zero]
  exact zero_pow two_ne_zero

/-- Both pool documents of the scenario receive similarity `0`: the
query's TF-IDF vector is zero, so every cosine against it is `0`. -/
lemma demo_scores_zero :
    similarityScores ("ai agent memory") [traceRelated, traceUnrelated] = [0, 0] := by
  rw [similarityScores]
  simp only [List.map_cons, List.map_nil]
  rw [tokenize_demo_query, tokenize_demo_related, tokenize_demo_unrelated,
    show (qTokens :: [d1Tokens, d2Tokens] : List (List Token)) = demoCorpus from rfl,
    cosineSimilarity_zero_of_norm_zero qTokens.toFinset d1Tokens.toFinset _ _
      (Or.inl demo_query_norm_zero),
    cosineSimilarity_zero_of_norm_zero qTokens.toFinset d2Tokens.toFinset _ _
      (Or.inl demo_query_norm_zero)]

/-- C4 counterexample: for the query `"ai agent memory"` over the pool
`[related, unrelated]`, the related document's similarity is `0`, not
strictly positive — no pool document scores above `0` (every query term
has document frequency 2 in the 3-document corpus, so its IDF is
`ln(3/3) = 0` and the query vector vanishes). -/
theorem retrieval_scenario_cex :
    similarityScores ("ai agent memory") [traceRelated, traceUnrelated] = [0, 0] ∧
    ¬ ∃ s ∈ similarityScores ("ai agent memory") [traceRelated, traceUnrelated],
      0 < s := by
  refine ⟨demo_scores_zero, ?_⟩
  rw [demo_scores_zero]
  rintro ⟨s, hs, hpos⟩
  rcases List.mem_cons.mp hs with rfl | hs
  · exact lt_irrefl 0 hpos
  rcases List.mem_cons.mp hs with rfl | hs
  · exact lt_irrefl 0 hpos
  · simp at hs

/-- C4 (amended): for the query `"ai agent memory"` and the pool
`[related, unrelated]`, `findSimilar` assigns **both** documents
similarity `0` (each query term's IDF over the 3-document corpus is
`ln(3/3) = 0`, so the query vector has zero norm), and returns the pool
in its original order — the related document still precedes the unrelated
one, but only by the stable tie-break, not by a positive score. -/
theorem retrieval_scenario_amended :
    similarityScores ("ai agent memory") [traceRelated, traceUnrelated] = [0, 0] ∧
    findSimilarTraces ("ai agent memory") [traceRelated, traceUnrelated] 3 =
      [traceRelated, traceUnrelated] := by
  refine ⟨demo_scores_zero, ?_⟩
  rw [findSimilarTraces, if_neg (by decide), if_neg (by decide), demo_scores_zero]
  simp [List.insertionSort, List.orderedInsert]

end Hippo
